import Mathlib

/-!
# Verification of `detox/src/artifacts/ArtifactsManager.js`

Shallow embedding of the `ArtifactsManager` class. JavaScript values that
matter to the claims are modelled explicitly:

* strings keep JS truthiness (`""` is falsy);
* the `pid` field is a JS number that may be `NaN` (its initial value);
* promises whose settlement matters are `Except String α` (a settled result:
  `.ok` for fulfilment, `.error` for rejection);
* the single-threaded promise chain `_idlePromise` is modelled as a counter of
  pending continuations (`idleChainLen`) that are executed in order, each
  continuation being `() => this._terminated ? this._runAllIdleTasks()
  : this._runNextIdleTask()` evaluated against the state at run time;
* observable side effects (hook invocations, error logging, `discard()` calls,
  idle-task executions, info logs) are recorded in an event trace.

Note a fact of the source that several claims hinge on: the field
`this._terminated` is read in `requestIdleCallback` (line 79) but **never
assigned anywhere in the file**; it is modelled as a `Bool` field that starts
`false` and that no operation sets.
-/

namespace ArtifactsManager

/-- JS string truthiness: a string is truthy iff it is nonempty. -/
def strTruthy (s : String) : Bool := !s.isEmpty

/-- JS number for the `pid` field: `nan` models the initial `NaN`, `int n` a
finite integer value. -/
inductive JsNum where
  | nan : JsNum
  | int (n : Int) : JsNum
deriving DecidableEq, Repr

/-- JS number truthiness: `NaN` and `0` are falsy, every other integer truthy. -/
def JsNum.truthy : JsNum → Bool
  | .nan => false
  | .int n => n != 0

/-- Model of `DetoxRuntimeError({ message })`. -/
structure DetoxRuntimeError where
  message : String
deriving DecidableEq, Repr

/-- Lifecycle hook names dispatched to plugins, plus `onIdleCallback`, the
phase name used by `_idleCallbackErrorHandle` when logging idle-task errors. -/
inductive Method where
  | onBeforeAll
  | onBeforeTest
  | onBeforeResetDevice
  | onResetDevice
  | onRelaunchApp
  | onAfterTest
  | onAfterAll
  | onTerminate
  | onIdleCallback
deriving DecidableEq, Repr

/-- Arguments passed along with a lifecycle fan-out. -/
inductive Args where
  | noArgs
  | launchInfo (deviceId bundleId : String) (pid : JsNum)
  | resetInfo (deviceId : String)
  | testInfo (summary : String)
deriving DecidableEq, Repr

instance {ε α : Type} [DecidableEq ε] [DecidableEq α] : DecidableEq (Except ε α) := fun x y =>
  match x, y with
  | .ok a, .ok b =>
    if h : a = b then .isTrue (by rw [h]) else .isFalse (by simp [h])
  | .error e, .error f =>
    if h : e = f then .isTrue (by rw [h]) else .isFalse (by simp [h])
  | .ok _, .error _ => .isFalse (by simp)
  | .error _, .ok _ => .isFalse (by simp)

/-- A plugin instance: a name and, for each hook invocation, the settled
result of the promise the hook returns (`.error` models a throw/rejection). -/
structure Plugin where
  name : String
  hook : Method → Args → Except String Unit

/-- A tracked artifact: an identity plus the settled result of `discard()`.
Structural equality plays the role of JS object identity (`SameValueZero`,
used by `_.pull`). -/
structure Artifact where
  id : Nat
  discardResult : Except String Unit
deriving DecidableEq, Repr

/-- An idle callback as stored in `_onIdleCallbacks`: its identity, the
`_from` tag assigned from `caller.name`, and its settled result. -/
structure IdleCallback where
  id : Nat
  callerName : String
  result : Except String Unit
deriving DecidableEq, Repr

/-- Observable side effects of the manager, in program order. `ranTask` is a
cooperative (single-task) idle execution, `ranBatch` a forced drain-all batch
(`Promise.all` over the spliced queue). -/
inductive Event where
  | hookCall (plugin : String) (method : Method) (args : Args)
  | caughtError (plugin : String) (method : Method)
  | discard (a : Artifact)
  | ranTask (cb : Nat)
  | ranBatch (cbs : List Nat)
  | logTerminated
  | logFinalized
deriving DecidableEq, Repr

/-- Mutable state of an `ArtifactsManager` instance.

`terminated` models `this._terminated`: the source reads it in
`requestIdleCallback` but contains no assignment to it, so no operation below
ever sets it. `terminateResult` models the `_.once` wrapper installed on
`onTerminate` in the constructor: `none` before the first call, afterwards the
cached settled result that later calls return without re-executing the body. -/
structure ManagerState where
  deviceId : String
  bundleId : String
  pid : JsNum
  activeArtifacts : List Artifact
  onIdleCallbacks : List IdleCallback
  idleChainLen : Nat
  terminated : Bool
  terminateResult : Option (Except String Unit)
  artifactPlugins : List Plugin

/-- Constructor state (`registerArtifactPlugins` already run, installing the
given plugin instances): empty deviceId/bundleId, `NaN` pid, empty artifact
and idle queues, resolved idle chain, `onTerminate` not yet called. -/
def initialState (plugins : List Plugin) : ManagerState where
  deviceId := ""
  bundleId := ""
  pid := .nan
  activeArtifacts := []
  onIdleCallbacks := []
  idleChainLen := 0
  terminated := false
  terminateResult := none
  artifactPlugins := plugins

/-- `Promise.all` over a list of already-settled promises: rejects with the
first rejection, otherwise fulfils with the list of values. Crucially its
argument list is built by `map`, so every promise (hook invocation) has been
started before aggregation. -/
def promiseAll {α : Type} : List (Except String α) → Except String (List α)
  | [] => .ok []
  | .error e :: _ => .error e
  | .ok a :: rs =>
    match promiseAll rs with
    | .error e => .error e
    | .ok as => .ok (a :: as)

/-- One wrapped plugin invocation inside `_emit`: `try { await
plugin[methodName](...args) } catch (e) { this._errorHandler(...) }`. The
trace records the hook call and, when the hook rejected, the error log from
`_errorHandler`; the wrapper itself never rejects because of the catch. -/
def emitPlugin (m : Method) (a : Args) (p : Plugin) : Except String (List Event) :=
  match p.hook m a with
  | .ok _ => .ok [.hookCall p.name m a]
  | .error _ => .ok [.hookCall p.name m a, .caughtError p.name m]

/-- `_emit(methodName, args)`: `Promise.all` over the wrapped per-plugin
invocations. -/
def emit (plugins : List Plugin) (m : Method) (a : Args) : Except String (List Event) :=
  (promiseAll (plugins.map (emitPlugin m a))).map fun traces => traces.foldr (· ++ ·) []

/-- The trace `_emit` produces per plugin (same match as `emitPlugin`, without
the `Except` wrapper; `emitPlugin_eq` below proves they agree). -/
def pluginEmitTrace (m : Method) (a : Args) (p : Plugin) : List Event :=
  match p.hook m a with
  | .ok _ => [.hookCall p.name m a]
  | .error _ => [.hookCall p.name m a, .caughtError p.name m]

/-- Full trace of an `_emit` fan-out over a plugin list. -/
def emitTrace (plugins : List Plugin) (m : Method) (a : Args) : List Event :=
  plugins.foldr (fun p acc => pluginEmitTrace m a p ++ acc) []

/-- `artifactsApi.getDeviceId`: throws a `DetoxRuntimeError` when
`this._deviceId` is falsy (empty), otherwise returns it. Reads state only. -/
def getDeviceId (s : ManagerState) : Except DetoxRuntimeError String :=
  if strTruthy s.deviceId then .ok s.deviceId
  else .error ⟨"Detox Artifacts API had no deviceId at the time of calling"⟩

/-- `artifactsApi.getBundleId`: same pattern for `this._bundleId`. -/
def getBundleId (s : ManagerState) : Except DetoxRuntimeError String :=
  if strTruthy s.bundleId then .ok s.bundleId
  else .error ⟨"Detox Artifacts API had no bundleId at the time of calling"⟩

/-- `artifactsApi.getPid`: throws when `this._pid` is falsy (`NaN` or `0`),
otherwise returns it. -/
def getPid (s : ManagerState) : Except DetoxRuntimeError JsNum :=
  if s.pid.truthy then .ok s.pid
  else .error ⟨"Detox Artifacts API had no app pid at the time of calling"⟩

/-- `artifactsApi.trackArtifact(artifact)`: push onto `_activeArtifacts`. -/
def trackArtifact (s : ManagerState) (a : Artifact) : ManagerState :=
  { s with activeArtifacts := s.activeArtifacts ++ [a] }

/-- `artifactsApi.untrackArtifact(artifact)`: `_.pull` removes every
occurrence equal to the artifact (SameValueZero) and throws nothing. -/
def untrackArtifact (s : ManagerState) (a : Artifact) : ManagerState :=
  { s with activeArtifacts := s.activeArtifacts.filter (· ≠ a) }

/-- `artifactsApi.requestIdleCallback(callback, caller)`: tag the callback
with `caller.name`, push it onto `_onIdleCallbacks`, and extend `_idlePromise`
with one more continuation. -/
def requestIdleCallback (s : ManagerState) (cbId : Nat) (result : Except String Unit)
    (caller : String) : ManagerState :=
  { s with
    onIdleCallbacks := s.onIdleCallbacks ++ [⟨cbId, caller, result⟩]
    idleChainLen := s.idleChainLen + 1 }

/-- Trace of executing one idle callback cooperatively: the task runs, and a
rejection is routed to `_idleCallbackErrorHandle` (an error log tagged with
the callback's `_from` name at phase `onIdleCallback`). -/
def taskEvents (cb : IdleCallback) : List Event :=
  match cb.result with
  | .ok _ => [.ranTask cb.id]
  | .error _ => [.ranTask cb.id, .caughtError cb.callerName .onIdleCallback]

/-- `_runNextIdleTask()`: shift the oldest callback off the queue and run it
(if any), catching its failure. -/
def runNextIdleTask (s : ManagerState) : ManagerState × List Event :=
  match s.onIdleCallbacks with
  | [] => (s, [])
  | cb :: rest => ({ s with onIdleCallbacks := rest }, taskEvents cb)

/-- Error logs of a forced batch: each rejected callback in the batch is
routed to `_idleCallbackErrorHandle` individually. -/
def batchErrorEvents : List IdleCallback → List Event
  | [] => []
  | cb :: rest =>
    match cb.result with
    | .ok _ => batchErrorEvents rest
    | .error _ => .caughtError cb.callerName .onIdleCallback :: batchErrorEvents rest

/-- `_runAllIdleTasks()`: splice the whole queue and run every spliced
callback concurrently as one batch under `Promise.all`, each failure caught
individually. -/
def runAllIdleTasks (s : ManagerState) : ManagerState × List Event :=
  ({ s with onIdleCallbacks := [] },
    .ranBatch (s.onIdleCallbacks.map (·.id)) :: batchErrorEvents s.onIdleCallbacks)

/-- One continuation of `_idlePromise`: `() => this._terminated ?
this._runAllIdleTasks() : this._runNextIdleTask()`, with `this._terminated`
read at the moment the continuation runs. -/
def idleChainStep (s : ManagerState) : ManagerState × List Event :=
  if s.terminated then runAllIdleTasks s else runNextIdleTask s

/-- Run `n` pending continuations of the idle chain in order. -/
def runChain : Nat → ManagerState → ManagerState × List Event
  | 0, s => (s, [])
  | n + 1, s =>
    let step := idleChainStep s
    let rest := runChain n step.1
    (rest.1, step.2 ++ rest.2)

/-- `await this._idlePromise`: every continuation pending at the moment of the
await runs to completion before the await resolves. -/
def awaitIdlePromise (s : ManagerState) : ManagerState × List Event :=
  let out := runChain s.idleChainLen s
  ({ out.1 with idleChainLen := 0 }, out.2)

/-- `onLaunchApp({ deviceId, bundleId, pid })`: remember whether
`this._deviceId` was falsy, overwrite the run context unconditionally, and
fan out `onRelaunchApp` with the new payload unless this was the "first"
launch. The fan-out trace is `emitTrace` (theorem `emit_never_rejects` shows
`_emit` always fulfils with exactly that trace). -/
def onLaunchApp (s : ManagerState) (deviceId bundleId : String) (pid : JsNum) :
    ManagerState × List Event :=
  let isFirstTime := !strTruthy s.deviceId
  let s1 := { s with deviceId := deviceId, bundleId := bundleId, pid := pid }
  if isFirstTime then (s1, [])
  else (s1, emitTrace s1.artifactPlugins .onRelaunchApp (.launchInfo deviceId bundleId pid))

/-- A `launchApp` device event payload. -/
structure LaunchEvent where
  deviceId : String
  bundleId : String
  pid : JsNum
deriving DecidableEq, Repr

/-- Process a sequence of `launchApp` events in order, accumulating the
trace. -/
def runLaunchSeq (s : ManagerState) : List LaunchEvent → ManagerState × List Event
  | [] => (s, [])
  | e :: es =>
    let fst := onLaunchApp s e.deviceId e.bundleId e.pid
    let rest := runLaunchSeq fst.1 es
    (rest.1, fst.2 ++ rest.2)

/-- `onAfterAll()`: fan out `onAfterAll`, then `await this._idlePromise`, then
log success. Uses `emitTrace` for the fan-out (justified by
`emit_never_rejects`). -/
def onAfterAll (s : ManagerState) : ManagerState × List Event :=
  let es := emitTrace s.artifactPlugins .onAfterAll .noArgs
  let drained := awaitIdlePromise s
  (drained.1, es ++ drained.2 ++ [.logFinalized])

/-- Body of `onTerminate()` as written (before the `_.once` wrapper): a bare
`Promise.all` over `plugin.onTerminate()` (no try/catch), then — only if that
fulfilled — a bare `Promise.all` over `artifact.discard()`, then the success
log. All hook invocations are started by `map` before `Promise.all` settles,
so every plugin's hook call is in the trace even when one rejects. -/
def onTerminateBody (s : ManagerState) : List Event × Except String Unit :=
  match promiseAll (s.artifactPlugins.map fun p => p.hook .onTerminate .noArgs) with
  | .error e =>
    (s.artifactPlugins.map fun p => Event.hookCall p.name .onTerminate .noArgs, .error e)
  | .ok _ =>
    match promiseAll (s.activeArtifacts.map (·.discardResult)) with
    | .error e =>
      ((s.artifactPlugins.map fun p => Event.hookCall p.name .onTerminate .noArgs)
        ++ s.activeArtifacts.map Event.discard, .error e)
    | .ok _ =>
      ((s.artifactPlugins.map fun p => Event.hookCall p.name .onTerminate .noArgs)
        ++ s.activeArtifacts.map Event.discard ++ [.logTerminated], .ok ())

/-- `onTerminate()` through the `_.once` wrapper installed in the
constructor: the first call runs the body and caches its settled result;
every later call performs no side effects and returns the cached result. -/
def onTerminate (s : ManagerState) : ManagerState × List Event × Except String Unit :=
  match s.terminateResult with
  | some r => (s, [], r)
  | none =>
    ({ s with terminateResult := some (onTerminateBody s).2 },
      (onTerminateBody s).1, (onTerminateBody s).2)

/-! ## Helper lemmas about `_emit` -/

/-- Each wrapped plugin invocation inside `_emit` fulfils with its trace: the
try/catch makes it impossible for the wrapper to reject. -/
theorem emitPlugin_eq (m : Method) (a : Args) (p : Plugin) :
    emitPlugin m a p = .ok (pluginEmitTrace m a p) := by
  unfold emitPlugin pluginEmitTrace
  cases p.hook m a <;> rfl

/-- `Promise.all` over a list of promises that all fulfil, fulfils with the
list of their values. -/
theorem promiseAll_map_ok {α β : Type} (f : α → Except String β) (g : α → β) :
    ∀ l : List α, (∀ x ∈ l, f x = .ok (g x)) → promiseAll (l.map f) = .ok (l.map g)
  | [], _ => rfl
  | x :: xs, h => by
    have hx := h x (List.mem_cons_self x xs)
    have hxs := promiseAll_map_ok f g xs (fun y hy => h y (List.mem_cons_of_mem x hy))
    simp [promiseAll, hx, hxs]

/-- Concatenating mapped blocks with `foldr` agrees with the direct fold. -/
theorem foldr_append_map {α : Type} (f : α → List Event) :
    ∀ l : List α, (l.map f).foldr (· ++ ·) [] = l.foldr (fun x acc => f x ++ acc) []
  | [] => rfl
  | x :: xs => by simp [foldr_append_map f xs]

/-- `_emit` never rejects: it always fulfils with the concatenated per-plugin
traces. -/
theorem emit_never_rejects (plugins : List Plugin) (m : Method) (a : Args) :
    emit plugins m a = .ok (emitTrace plugins m a) := by
  unfold emit
  rw [promiseAll_map_ok (emitPlugin m a) (pluginEmitTrace m a) plugins
    (fun p _ => emitPlugin_eq m a p)]
  simp only [Except.map]
  rw [foldr_append_map]
  rfl

/-- Each per-plugin trace of `_emit` records the hook invocation. -/
theorem hookCall_mem_pluginEmitTrace (m : Method) (a : Args) (p : Plugin) :
    Event.hookCall p.name m a ∈ pluginEmitTrace m a p := by
  unfold pluginEmitTrace
  cases p.hook m a <;> simp

/-- Unfolding `emitTrace` over a cons cell. -/
theorem emitTrace_cons (m : Method) (a : Args) (q : Plugin) (qs : List Plugin) :
    emitTrace (q :: qs) m a = pluginEmitTrace m a q ++ emitTrace qs m a := rfl

/-- Every plugin's hook invocation appears in the fan-out trace. -/
theorem hookCall_mem_emitTrace (m : Method) (a : Args) :
    ∀ (plugins : List Plugin) (p : Plugin), p ∈ plugins →
      Event.hookCall p.name m a ∈ emitTrace plugins m a
  | [], p, hp => absurd hp (List.not_mem_nil p)
  | q :: qs, p, hp => by
    rw [emitTrace_cons]
    rcases List.mem_cons.mp hp with h | h
    · subst h
      exact List.mem_append_left _ (hookCall_mem_pluginEmitTrace m a p)
    · exact List.mem_append_right _ (hookCall_mem_emitTrace m a qs p h)

/-- Plugin whose every hook fulfils. -/
def pOk : Plugin := ⟨"P2", fun _ _ => .ok ()⟩

/-- Plugin whose every hook rejects. -/
def pBad : Plugin := ⟨"P1", fun _ _ => .error "boom"⟩

/-! ## Claim theorems -/

/-- C5: for every lifecycle fan-out dispatched through `_emit` and every set
of registered plugins, even when some plugin's hook rejects, the dispatcher's
returned promise fulfils (never rejects), and every plugin's same-event hook
is invoked (its invocation is in the trace, produced by running the hook to
its settled result). -/
theorem emit_isolates_failures (plugins : List Plugin) (m : Method) (a : Args) :
    emit plugins m a = .ok (emitTrace plugins m a) ∧
    ∀ p ∈ plugins, Event.hookCall p.name m a ∈ emitTrace plugins m a :=
  ⟨emit_never_rejects plugins m a, fun p hp => hookCall_mem_emitTrace m a plugins p hp⟩

/-- Witness for C5 at a concrete input: one rejecting and one fulfilling
plugin, `onBeforeAll` fan-out. -/
theorem emit_isolates_failures_witness :
    emit [pBad, pOk] .onBeforeAll .noArgs = .ok (emitTrace [pBad, pOk] .onBeforeAll .noArgs) ∧
    Event.hookCall "P2" .onBeforeAll .noArgs ∈ emitTrace [pBad, pOk] .onBeforeAll .noArgs :=
  ⟨(emit_isolates_failures [pBad, pOk] .onBeforeAll .noArgs).1,
    (emit_isolates_failures [pBad, pOk] .onBeforeAll .noArgs).2 pOk
      (List.mem_cons.mpr (Or.inr (List.mem_cons_self pOk [])))⟩

/-- C7: a second (or any later) `onTerminate` call performs no additional
side effects — the `_.once` wrapper returns the cached result, with an empty
event trace and unchanged state. -/
theorem onTerminate_idempotent (s : ManagerState) :
    onTerminate ((onTerminate s).1) = ((onTerminate s).1, [], (onTerminate s).2.2) := by
  cases h : s.terminateResult <;> simp [onTerminate, h]

/-- C1: the source never assigns `this._terminated`, so even after
`onTerminate` has run, a newly requested idle callback is drained by the
cooperative single-task continuation (`_runNextIdleTask` producing a
`ranTask` event), not the forced drain-all continuation (`_runAllIdleTasks`
producing a `ranBatch` event) that the spec requires. -/
theorem terminated_request_still_cooperative :
    ((onTerminate (initialState [])).1).terminated = false ∧
    (idleChainStep (requestIdleCallback (onTerminate (initialState [])).1 7
      (.ok ()) "plugin")).2 = [Event.ranTask 7] ∧
    (idleChainStep (requestIdleCallback (onTerminate (initialState [])).1 7
      (.ok ()) "plugin")).2 ≠ [Event.ranBatch [7]] := by
  refine ⟨rfl, rfl, ?_⟩
  decide

/-! ## Launch events and the run context -/

/-- The state after `onLaunchApp` always carries the event's run context
(both branches return the updated state). -/
theorem onLaunchApp_state (s : ManagerState) (d b : String) (p : JsNum) :
    (onLaunchApp s d b p).1 = { s with deviceId := d, bundleId := b, pid := p } := by
  simp only [onLaunchApp]
  split <;> rfl

/-- With an unbound (falsy) deviceId the launch is "first time": no fan-out. -/
theorem onLaunchApp_first (s : ManagerState) (d b : String) (p : JsNum)
    (hs : strTruthy s.deviceId = false) :
    onLaunchApp s d b p = ({ s with deviceId := d, bundleId := b, pid := p }, []) := by
  simp [onLaunchApp, hs]

/-- With a bound (truthy) deviceId the launch fans out `onRelaunchApp` with
the new payload. -/
theorem onLaunchApp_of_bound (s : ManagerState) (d b : String) (p : JsNum)
    (hs : strTruthy s.deviceId = true) :
    onLaunchApp s d b p
      = ({ s with deviceId := d, bundleId := b, pid := p },
         emitTrace s.artifactPlugins .onRelaunchApp (.launchInfo d b p)) := by
  simp [onLaunchApp, hs]

/-- C3 counterexample: after a launchApp event carrying pid 0, `getPid` still
throws the precondition error instead of returning the carried value, because
the source tests JS truthiness (`!this._pid`), not presence. -/
theorem getPid_zero_launch_throws :
    getPid ((onLaunchApp (initialState []) "device1" "bundle1" (JsNum.int 0)).1)
      = .error ⟨"Detox Artifacts API had no app pid at the time of calling"⟩ := by
  rfl

/-- C3 (amended): the three context getters throw a `DetoxRuntimeError`
before the first launch event, and after a launch event whose carried fields
are JS-truthy (nonempty strings, a nonzero non-NaN pid) each returns the
field of the most recent launch event; the getters only read state (their
types take the state and return a value, no state update). A falsy carried
field still triggers the precondition error, see the counterexample. -/
theorem context_getters_spec (plugins : List Plugin) (s : ManagerState) (d b : String)
    (p : JsNum) (hd : strTruthy d = true) (hb : strTruthy b = true) (hp : p.truthy = true) :
    getDeviceId (initialState plugins)
        = .error ⟨"Detox Artifacts API had no deviceId at the time of calling"⟩ ∧
    getBundleId (initialState plugins)
        = .error ⟨"Detox Artifacts API had no bundleId at the time of calling"⟩ ∧
    getPid (initialState plugins)
        = .error ⟨"Detox Artifacts API had no app pid at the time of calling"⟩ ∧
    getDeviceId ((onLaunchApp s d b p).1) = .ok d ∧
    getBundleId ((onLaunchApp s d b p).1) = .ok b ∧
    getPid ((onLaunchApp s d b p).1) = .ok p := by
  refine ⟨rfl, rfl, rfl, ?_, ?_, ?_⟩ <;>
    simp [onLaunchApp_state, getDeviceId, getBundleId, getPid, hd, hb, hp]

/-- Witness for C3 (amended) at a concrete launch event. -/
theorem context_getters_spec_witness :
    strTruthy "dev" = true ∧ strTruthy "com.app" = true ∧ (JsNum.int 5).truthy = true ∧
    getPid ((onLaunchApp (initialState []) "dev" "com.app" (JsNum.int 5)).1)
      = .ok (JsNum.int 5) :=
  ⟨by decide, by decide, by decide,
    (context_getters_spec [] (initialState []) "dev" "com.app" (JsNum.int 5)
      (by decide) (by decide) (by decide)).2.2.2.2.2⟩

/-- Expected relaunch fan-out trace: one `onRelaunchApp` fan-out per event,
each carrying its own payload, in order. -/
def relaunchTrace (plugins : List Plugin) : List LaunchEvent → List Event
  | [] => []
  | e :: es =>
    emitTrace plugins .onRelaunchApp (.launchInfo e.deviceId e.bundleId e.pid)
      ++ relaunchTrace plugins es

/-- C4 counterexample: when the first launchApp event carries an empty
deviceId, the second launchApp event is still treated as "first time"
(`!this._deviceId` is still true), so it triggers no `onRelaunchApp` fan-out
at all even though a plugin is registered — the whole trace is empty where
the claim requires one fan-out carrying the second payload. -/
theorem second_launch_without_fanout :
    (runLaunchSeq (initialState [pOk])
      [⟨"", "b1", JsNum.int 1⟩, ⟨"d2", "b2", JsNum.int 2⟩]).2 = [] := by
  rfl

/-- After context is bound (truthy stored deviceId), every further launch
event with a truthy deviceId fans out `onRelaunchApp` exactly once with its
payload, in order. -/
theorem runLaunchSeq_bound (plugins : List Plugin) :
    ∀ (es : List LaunchEvent) (s : ManagerState),
      s.artifactPlugins = plugins → strTruthy s.deviceId = true →
      (∀ x ∈ es, strTruthy x.deviceId = true) →
      (runLaunchSeq s es).2 = relaunchTrace plugins es
  | [], _, _, _, _ => rfl
  | e :: es, s, hpl, hs, hall => by
    have he : strTruthy e.deviceId = true := hall e (List.mem_cons_self e es)
    have hrest := runLaunchSeq_bound plugins es
      { s with deviceId := e.deviceId, bundleId := e.bundleId, pid := e.pid }
      hpl he (fun x hx => hall x (List.mem_cons_of_mem e hx))
    rw [hpl] at hrest
    simp [runLaunchSeq, onLaunchApp_of_bound s _ _ _ hs, hrest, relaunchTrace, hpl]

/-- C4 (amended): for every sequence of launchApp events processed from the
initial state in which every event carries a JS-truthy (nonempty) deviceId,
the first event triggers no `onRelaunchApp` fan-out and every subsequent
event triggers exactly one fan-out carrying that event's new
`{deviceId, bundleId, pid}` payload, in order. (If an event may carry an
empty deviceId the claim fails, see the counterexample.) -/
theorem launch_fanouts (plugins : List Plugin) (e : LaunchEvent) (es : List LaunchEvent)
    (he : strTruthy e.deviceId = true) (hes : ∀ x ∈ es, strTruthy x.deviceId = true) :
    (runLaunchSeq (initialState plugins) (e :: es)).2 = relaunchTrace plugins es := by
  have h0 : strTruthy (initialState plugins).deviceId = false := rfl
  have hrest := runLaunchSeq_bound plugins es
    { initialState plugins with deviceId := e.deviceId, bundleId := e.bundleId, pid := e.pid }
    rfl he hes
  simp [runLaunchSeq, onLaunchApp_first (initialState plugins) _ _ _ h0, hrest]

/-- Witness for C4 (amended) at a concrete two-event sequence. -/
theorem launch_fanouts_witness :
    strTruthy "d1" = true ∧
    (runLaunchSeq (initialState [pOk])
        [⟨"d1", "b1", JsNum.int 1⟩, ⟨"d2", "b2", JsNum.int 2⟩]).2
      = relaunchTrace [pOk] [⟨"d2", "b2", JsNum.int 2⟩] :=
  ⟨by decide,
    launch_fanouts [pOk] ⟨"d1", "b1", JsNum.int 1⟩ [⟨"d2", "b2", JsNum.int 2⟩]
      (by decide) (by decide)⟩

/-! ## Teardown: `onTerminate`, tracked artifacts -/

/-- `Promise.all` rejects whenever one of its promises is rejected. -/
theorem promiseAll_error_of_mem {α : Type} (e : String) :
    ∀ l : List (Except String α), Except.error e ∈ l → ∃ f, promiseAll l = .error f
  | [], h => absurd h (List.not_mem_nil _)
  | .error e1 :: _, _ => ⟨e1, rfl⟩
  | .ok _ :: rs, h => by
    rcases List.mem_cons.mp h with h1 | h1
    · exact absurd h1 (by simp)
    · obtain ⟨f, hf⟩ := promiseAll_error_of_mem e rs h1
      exact ⟨f, by simp [promiseAll, hf]⟩

/-- Shape of the first-call `onTerminate` trace in every branch: the plugin
hook invocations first (all started by `map` before `Promise.all` settles),
then possibly the discard block, then possibly the success log. -/
theorem onTerminateBody_shape (s : ManagerState) :
    ∃ mid tail : List Event,
      (onTerminateBody s).1
        = (s.artifactPlugins.map fun p => Event.hookCall p.name .onTerminate .noArgs)
          ++ mid ++ tail ∧
      (mid = [] ∨ mid = s.activeArtifacts.map Event.discard) ∧
      (tail = [] ∨ tail = [Event.logTerminated]) := by
  unfold onTerminateBody
  cases promiseAll (s.artifactPlugins.map fun p => p.hook Method.onTerminate Args.noArgs) with
  | error e => exact ⟨[], [], by simp, Or.inl rfl, Or.inl rfl⟩
  | ok v =>
    cases promiseAll (s.activeArtifacts.map (·.discardResult)) with
    | error e =>
      exact ⟨s.activeArtifacts.map Event.discard, [], by simp, Or.inr rfl, Or.inl rfl⟩
    | ok w =>
      exact ⟨s.activeArtifacts.map Event.discard, [Event.logTerminated], by simp,
        Or.inr rfl, Or.inr rfl⟩

/-- When every plugin terminate hook fulfils, the first-call trace contains
the whole discard block, followed only by (at most) the success log. -/
theorem onTerminateBody_all_ok (s : ManagerState)
    (hp : ∀ p ∈ s.artifactPlugins, p.hook .onTerminate .noArgs = .ok ()) :
    ∃ tail : List Event,
      (onTerminateBody s).1
        = (s.artifactPlugins.map fun p => Event.hookCall p.name .onTerminate .noArgs)
          ++ s.activeArtifacts.map Event.discard ++ tail ∧
      (tail = [] ∨ tail = [Event.logTerminated]) := by
  have hall := promiseAll_map_ok (fun p => p.hook .onTerminate .noArgs) (fun _ => ())
    s.artifactPlugins hp
  unfold onTerminateBody
  rw [hall]
  cases promiseAll (s.activeArtifacts.map (·.discardResult)) with
  | error e => exact ⟨[], by simp, Or.inl rfl⟩
  | ok w => exact ⟨[Event.logTerminated], by simp, Or.inr rfl⟩

/-- When some plugin terminate hook rejects, the first-call trace stops at
the hook invocations (no discard, no log) and the returned promise rejects. -/
theorem onTerminateBody_plugin_error (s : ManagerState) (e : String)
    (hp : Except.error e ∈ s.artifactPlugins.map fun p => p.hook .onTerminate .noArgs) :
    (onTerminateBody s).1
        = (s.artifactPlugins.map fun p => Event.hookCall p.name .onTerminate .noArgs) ∧
    ∃ f, (onTerminateBody s).2 = .error f := by
  obtain ⟨f, hf⟩ := promiseAll_error_of_mem e _ hp
  unfold onTerminateBody
  rw [hf]
  exact ⟨rfl, f, rfl⟩

/-- Hook-invocation events are never discard events. -/
theorem discard_not_mem_callEvents (plugins : List Plugin) (a : Artifact) :
    Event.discard a ∉ plugins.map fun p => Event.hookCall p.name .onTerminate .noArgs := by
  intro h
  obtain ⟨p, _, hp⟩ := List.mem_map.mp h
  exact Event.noConfusion hp

/-- Counting discard events over a mapped artifact list counts artifacts. -/
theorem count_discard_map (a : Artifact) :
    ∀ l : List Artifact, (l.map Event.discard).count (Event.discard a) = l.count a
  | [] => rfl
  | x :: xs => by
    have ih := count_discard_map a xs
    by_cases hx : x = a
    · simp [hx, List.count_cons, ih]
    · have hne : Event.discard x ≠ Event.discard a := fun hc => hx (by injection hc)
      simp [List.count_cons, ih, hx, hne]

/-- On the first call the `_.once` wrapper just runs the body. -/
theorem onTerminate_first (s : ManagerState) (h : s.terminateResult = none) :
    (onTerminate s).2.1 = (onTerminateBody s).1 ∧
    (onTerminate s).2.2 = (onTerminateBody s).2 := by
  simp [onTerminate, h]

/-- C2 (amended): on the first `onTerminate` invocation every registered
plugin's `onTerminate` hook is invoked (the `Promise.all` argument array is
built by `map`, which starts them all), and when every plugin hook fulfils,
every still-tracked artifact's `discard()` is invoked; but there is no
per-plugin error isolation: a rejecting plugin hook leaves no per-plugin
error log, makes `onTerminate` itself reject, and skips the artifact-discard
phase entirely. -/
theorem onTerminate_first_call (s : ManagerState) (h : s.terminateResult = none) :
    (∀ p ∈ s.artifactPlugins,
      Event.hookCall p.name .onTerminate .noArgs ∈ (onTerminate s).2.1) ∧
    ((∀ p ∈ s.artifactPlugins, p.hook .onTerminate .noArgs = .ok ()) →
      ∀ a ∈ s.activeArtifacts, Event.discard a ∈ (onTerminate s).2.1) ∧
    (∀ e : String,
      (Except.error e ∈ s.artifactPlugins.map fun p => p.hook .onTerminate .noArgs) →
      (∀ a : Artifact, Event.discard a ∉ (onTerminate s).2.1) ∧
      ∃ f, (onTerminate s).2.2 = .error f) := by
  obtain ⟨hev, hres⟩ := onTerminate_first s h
  refine ⟨?_, ?_, ?_⟩
  · intro p hp
    obtain ⟨mid, tail, hshape, _, _⟩ := onTerminateBody_shape s
    rw [hev, hshape]
    exact List.mem_append_left _ (List.mem_append_left _
      (List.mem_map.mpr ⟨p, hp, rfl⟩))
  · intro hok a ha
    obtain ⟨tail, hshape, _⟩ := onTerminateBody_all_ok s hok
    rw [hev, hshape]
    exact List.mem_append_left _ (List.mem_append_right _
      (List.mem_map.mpr ⟨a, ha, rfl⟩))
  · intro e he
    obtain ⟨hevs, f, hf⟩ := onTerminateBody_plugin_error s e he
    refine ⟨?_, f, by rw [hres, hf]⟩
    intro a ha
    rw [hev, hevs] at ha
    exact discard_not_mem_callEvents s.artifactPlugins a ha

/-- Plugin whose `onTerminate` hook rejects and whose other hooks fulfil. -/
def pTermBad : Plugin :=
  ⟨"P1", fun m _ => match m with | .onTerminate => .error "boom" | _ => .ok ()⟩

/-- A tracked artifact whose `discard()` fulfils. -/
def artA : Artifact := ⟨0, .ok ()⟩

/-- C2 counterexample: with plugins P1 (onTerminate rejects) and P2, and one
tracked artifact, the first `onTerminate` call invokes both hooks but logs no
per-plugin error, never invokes the artifact's `discard()`, and rejects —
where the claim requires isolation (logged, others unaffected) and a discard
regardless of the failure. -/
theorem onTerminate_counterexample :
    (onTerminate (trackArtifact (initialState [pTermBad, pOk]) artA)).2.1
        = [Event.hookCall "P1" .onTerminate .noArgs,
           Event.hookCall "P2" .onTerminate .noArgs] ∧
    Event.discard artA ∉ (onTerminate (trackArtifact (initialState [pTermBad, pOk]) artA)).2.1 ∧
    (onTerminate (trackArtifact (initialState [pTermBad, pOk]) artA)).2.2
        = .error "boom" := by
  refine ⟨rfl, ?_, rfl⟩
  decide

/-- Witness for C2 (amended): one fulfilling plugin, one tracked artifact —
the hook is invoked and the artifact discarded on the first call. -/
theorem onTerminate_first_call_witness :
    (trackArtifact (initialState [pOk]) artA).terminateResult = none ∧
    Event.discard artA
      ∈ (onTerminate (trackArtifact (initialState [pOk]) artA)).2.1 :=
  ⟨rfl,
    (onTerminate_first_call (trackArtifact (initialState [pOk]) artA) rfl).2.1
      (by decide)
      artA (List.mem_cons_self artA [])⟩

/-- C8 counterexample: an artifact tracked twice and never untracked has its
`discard()` invoked twice — not exactly once — during teardown: the live list
is a plain array that `trackArtifact` pushes onto, and teardown maps
`discard()` over every element. -/
theorem double_track_two_discards :
    ((onTerminate (trackArtifact (trackArtifact (initialState []) artA) artA)).2.1).count
      (Event.discard artA) = 2 := by
  decide

/-- C8 (amended): on the first `onTerminate` call, when every plugin
terminate hook fulfils, an artifact occurring exactly once in the live list
(tracked once and never untracked) has `discard()` invoked exactly once, and
an artifact absent from the live list (in particular one untracked after
being tracked, see C10) is never discarded. Without these provisos the claim
fails: a double-tracked artifact is discarded once per occurrence (see the
counterexample) and a rejecting plugin terminate hook skips the discard phase
(see C2). -/
theorem teardown_discards_live (s : ManagerState) (a : Artifact)
    (h : s.terminateResult = none)
    (hp : ∀ p ∈ s.artifactPlugins, p.hook .onTerminate .noArgs = .ok ()) :
    (s.activeArtifacts.count a = 1 →
      ((onTerminate s).2.1).count (Event.discard a) = 1) ∧
    (a ∉ s.activeArtifacts → Event.discard a ∉ (onTerminate s).2.1) := by
  obtain ⟨hev, _⟩ := onTerminate_first s h
  obtain ⟨tail, hshape, htail⟩ := onTerminateBody_all_ok s hp
  have hcall0 : ((s.artifactPlugins.map
      fun p => Event.hookCall p.name .onTerminate .noArgs).count (Event.discard a)) = 0 :=
    List.count_eq_zero.mpr (discard_not_mem_callEvents s.artifactPlugins a)
  have htail0 : tail.count (Event.discard a) = 0 := by
    rcases htail with h1 | h1 <;> simp [h1]
  constructor
  · intro hcount
    rw [hev, hshape]
    simp [List.count_append, hcall0, htail0, count_discard_map, hcount]
  · intro hmem
    rw [hev, hshape]
    intro hcon
    rcases List.mem_append.mp hcon with hc | hc
    · rcases List.mem_append.mp hc with hc2 | hc2
      · exact discard_not_mem_callEvents s.artifactPlugins a hc2
      · obtain ⟨b, hb, hba⟩ := List.mem_map.mp hc2
        have hba2 : b = a := by injection hba
        exact hmem (hba2 ▸ hb)
    · rcases htail with h1 | h1 <;> simp [h1] at hc

/-- Witness for C8 (amended): a single tracked artifact with no plugins is
discarded exactly once by the first `onTerminate` call. -/
theorem teardown_discards_live_witness :
    (trackArtifact (initialState []) artA).activeArtifacts.count artA = 1 ∧
    ((onTerminate (trackArtifact (initialState []) artA)).2.1).count
      (Event.discard artA) = 1 :=
  ⟨by decide,
    (teardown_discards_live (trackArtifact (initialState []) artA) artA rfl
      (by decide)).1 (by decide)⟩

/-- C10: `untrackArtifact` (`_.pull` by SameValueZero identity) removes every
occurrence of the artifact in one call — afterwards the artifact occurs zero
times in the live list and teardown never invokes its `discard()`; untracking
an artifact that is not tracked leaves the state unchanged (and the operation
is a total function: it throws nothing). -/
theorem untrack_removes_all (s : ManagerState) (a : Artifact) :
    (untrackArtifact s a).activeArtifacts.count a = 0 ∧
    (a ∉ s.activeArtifacts → untrackArtifact s a = s) ∧
    Event.discard a ∉ (onTerminate (untrackArtifact s a)).2.1 := by
  have hnotmem : a ∉ (untrackArtifact s a).activeArtifacts := by
    simp [untrackArtifact]
  refine ⟨List.count_eq_zero.mpr hnotmem, ?_, ?_⟩
  · intro hmem
    have hfilter : s.activeArtifacts.filter (· ≠ a) = s.activeArtifacts := by
      apply List.filter_eq_self.mpr
      intro b hb
      simp only [ne_eq, decide_not, Bool.not_eq_true', decide_eq_false_iff_not]
      exact fun hba => hmem (hba ▸ hb)
    unfold untrackArtifact
    rw [hfilter]
  · intro hcon
    cases hres : (untrackArtifact s a).terminateResult with
    | none =>
      obtain ⟨hev, _⟩ := onTerminate_first _ hres
      rw [hev] at hcon
      obtain ⟨mid, tail, hshape, hmid, htail⟩ := onTerminateBody_shape (untrackArtifact s a)
      rw [hshape] at hcon
      rcases List.mem_append.mp hcon with hc | hc
      · rcases List.mem_append.mp hc with hc2 | hc2
        · exact discard_not_mem_callEvents _ a hc2
        · rcases hmid with h1 | h1
          · simp [h1] at hc2
          · rw [h1] at hc2
            obtain ⟨b, hb, hba⟩ := List.mem_map.mp hc2
            have hba2 : b = a := by injection hba
            exact hnotmem (hba2 ▸ hb)
      · rcases htail with h1 | h1 <;> simp [h1] at hc
    | some r =>
      simp [onTerminate, hres] at hcon

/-- Witness for C10: untracking an artifact that was never tracked is a
no-op on the whole state. -/
theorem untrack_removes_all_witness :
    artA ∉ (initialState []).activeArtifacts ∧
    untrackArtifact (initialState []) artA = initialState [] :=
  ⟨by decide, (untrack_removes_all (initialState []) artA).2.1 (by decide)⟩

/-! ## The idle chain -/

/-- Trace of a full cooperative drain of a queue: one single-task block per
callback, in FIFO order. -/
def cooperativeDrainTrace : List IdleCallback → List Event
  | [] => []
  | cb :: rest => taskEvents cb ++ cooperativeDrainTrace rest

/-- Concatenating queues concatenates their drain traces. -/
theorem cooperativeDrainTrace_append :
    ∀ q r : List IdleCallback,
      cooperativeDrainTrace (q ++ r) = cooperativeDrainTrace q ++ cooperativeDrainTrace r
  | [], _ => rfl
  | x :: xs, r => by
    simp [cooperativeDrainTrace, cooperativeDrainTrace_append xs r]

/-- Running as many chain continuations as there are queued callbacks, with
the terminated flag unset (as it always is, see C1), empties the queue and
produces the cooperative FIFO drain trace. -/
theorem runChain_cooperative :
    ∀ (q : List IdleCallback) (s : ManagerState),
      s.terminated = false → s.onIdleCallbacks = q →
      runChain q.length s = ({ s with onIdleCallbacks := [] }, cooperativeDrainTrace q)
  | [], s, _, hq => by
    have hs : ({ s with onIdleCallbacks := [] } : ManagerState) = s := by
      rw [← hq]
    simp [runChain, cooperativeDrainTrace, hs]
  | cb :: rest, s, hTerm, hq => by
    have hstep : idleChainStep s = ({ s with onIdleCallbacks := rest }, taskEvents cb) := by
      simp [idleChainStep, hTerm, runNextIdleTask, hq]
    have ih := runChain_cooperative rest { s with onIdleCallbacks := rest } hTerm rfl
    simp [runChain, hstep, ih, cooperativeDrainTrace]

/-- Awaiting `_idlePromise` when the chain has one pending continuation per
queued callback drains the queue cooperatively in FIFO order. -/
theorem awaitIdlePromise_drains (s : ManagerState)
    (hTerm : s.terminated = false) (hLen : s.idleChainLen = s.onIdleCallbacks.length) :
    awaitIdlePromise s
      = ({ s with onIdleCallbacks := [], idleChainLen := 0 },
         cooperativeDrainTrace s.onIdleCallbacks) := by
  have h := runChain_cooperative s.onIdleCallbacks s hTerm rfl
  simp [awaitIdlePromise, hLen, h]

/-- C6: three idle callbacks requested in order A, B, C before termination
execute strictly in submission order, one at a time: the drain trace is the
cooperative per-task block of every previously queued task, then A's block,
then B's, then C's. Each block is one `ranTask` execution (followed only by
its own error log), so B's execution cannot precede A's completion, whatever
the requesting caller names are. -/
theorem idle_tasks_fifo (s : ManagerState) (a b c : IdleCallback)
    (hTerm : s.terminated = false) (hLen : s.idleChainLen = s.onIdleCallbacks.length) :
    (awaitIdlePromise (requestIdleCallback (requestIdleCallback (requestIdleCallback s
        a.id a.result a.callerName) b.id b.result b.callerName)
        c.id c.result c.callerName)).2
      = cooperativeDrainTrace s.onIdleCallbacks
        ++ taskEvents a ++ taskEvents b ++ taskEvents c := by
  have hLen3 : (requestIdleCallback (requestIdleCallback (requestIdleCallback s
      a.id a.result a.callerName) b.id b.result b.callerName)
      c.id c.result c.callerName).idleChainLen
      = (requestIdleCallback (requestIdleCallback (requestIdleCallback s
      a.id a.result a.callerName) b.id b.result b.callerName)
      c.id c.result c.callerName).onIdleCallbacks.length := by
    simp [requestIdleCallback, hLen]
  have h3 := awaitIdlePromise_drains (requestIdleCallback (requestIdleCallback
    (requestIdleCallback s a.id a.result a.callerName) b.id b.result b.callerName)
    c.id c.result c.callerName) hTerm hLen3
  rw [h3]
  show cooperativeDrainTrace (((s.onIdleCallbacks ++ [a]) ++ [b]) ++ [c]) = _
  simp [cooperativeDrainTrace_append, cooperativeDrainTrace, List.append_assoc]

/-- Witness for C6 at a concrete quiescent state and three callbacks from
different callers, the third one failing. -/
theorem idle_tasks_fifo_witness :
    (initialState []).terminated = false ∧
    (awaitIdlePromise (requestIdleCallback (requestIdleCallback (requestIdleCallback
        (initialState []) 1 (.ok ()) "p1") 2 (.ok ()) "p2") 3 (.error "x") "p3")).2
      = cooperativeDrainTrace (initialState []).onIdleCallbacks
        ++ taskEvents ⟨1, "p1", .ok ()⟩ ++ taskEvents ⟨2, "p2", .ok ()⟩
        ++ taskEvents ⟨3, "p3", .error "x"⟩ :=
  ⟨rfl, idle_tasks_fifo (initialState []) ⟨1, "p1", .ok ()⟩ ⟨2, "p2", .ok ()⟩
    ⟨3, "p3", .error "x"⟩ rfl rfl⟩

/-- Each queued callback's execution event occurs in the drain trace. -/
theorem ranTask_mem_drainTrace :
    ∀ (q : List IdleCallback) (cb : IdleCallback), cb ∈ q →
      Event.ranTask cb.id ∈ cooperativeDrainTrace q
  | [], cb, h => absurd h (List.not_mem_nil cb)
  | x :: xs, cb, h => by
    rw [cooperativeDrainTrace]
    rcases List.mem_cons.mp h with h1 | h1
    · have hx : Event.ranTask x.id ∈ taskEvents x := by
        unfold taskEvents
        cases x.result <;> simp
      rw [h1]
      exact List.mem_append_left _ hx
    · exact List.mem_append_right _ (ranTask_mem_drainTrace xs cb h1)

/-- C9: `onAfterAll` fans out to the plugins and then awaits the whole
outstanding idle chain before returning: afterwards the idle queue is empty,
and the returned trace is the fan-out, then the full FIFO drain — containing
the execution of every idle task queued when the await began (requested
before or during the fan-out), each run to completion or failed in isolation
— then the final success log. -/
theorem afterAll_flushes_idle (s : ManagerState)
    (hTerm : s.terminated = false) (hLen : s.idleChainLen = s.onIdleCallbacks.length) :
    (onAfterAll s).1.onIdleCallbacks = [] ∧
    (onAfterAll s).2
      = emitTrace s.artifactPlugins .onAfterAll .noArgs
        ++ cooperativeDrainTrace s.onIdleCallbacks ++ [Event.logFinalized] ∧
    ∀ cb ∈ s.onIdleCallbacks, Event.ranTask cb.id ∈ (onAfterAll s).2 := by
  have hd := awaitIdlePromise_drains s hTerm hLen
  refine ⟨?_, ?_, ?_⟩
  · simp [onAfterAll, hd]
  · simp [onAfterAll, hd]
  · intro cb hcb
    have hm := ranTask_mem_drainTrace s.onIdleCallbacks cb hcb
    simp only [onAfterAll, hd]
    exact List.mem_append_left _ (List.mem_append_right _ hm)

/-- Witness for C9: one plugin, one already-queued idle task; after
`onAfterAll` the queue is empty and the task has run. -/
theorem afterAll_flushes_idle_witness :
    (requestIdleCallback (initialState [pOk]) 4 (.ok ()) "p").terminated = false ∧
    (onAfterAll (requestIdleCallback (initialState [pOk]) 4
      (.ok ()) "p")).1.onIdleCallbacks = [] ∧
    Event.ranTask 4 ∈ (onAfterAll (requestIdleCallback (initialState [pOk]) 4
      (.ok ()) "p")).2 :=
  ⟨rfl,
    (afterAll_flushes_idle (requestIdleCallback (initialState [pOk]) 4
      (.ok ()) "p") rfl rfl).1,
    (afterAll_flushes_idle (requestIdleCallback (initialState [pOk]) 4
      (.ok ()) "p") rfl rfl).2.2 ⟨4, "p", .ok ()⟩ (List.mem_cons_self _ [])⟩

end ArtifactsManager
